import Mathlib

/-!
Verification of the servicekit WebSocket connection core and its gRPC-WS
streaming bridge.  The Go sources are shallowly embedded: pure helpers become
Lean functions, stateful methods become explicit state passing, Go `error`
results become `Option`/`Except` values, and the `int64` ping counter is an
`Int` reduced with an explicit wrap at each increment.  External byte-level
JSON (de)serialization from `encoding/json` is modelled at the level of parsed
JSON values: a marshalled value stands for the byte string it prints to, and
parsing those bytes yields the same value back.
-/

namespace ServiceKit

/-- Parsed JSON values.  Object fields are kept as an ordered association
list; values produced by the Go code (`json.Marshal` of a struct or of a
`map[string]any`) list their keys in the order Go emits them (struct-field
order, or sorted keys for maps).  JSON numbers appearing in the verified
paths are integers, so numbers are modelled as `Int`. -/
inductive Json where
  | null
  | bool (b : Bool)
  | num (n : Int)
  | str (s : String)
  | arr (elems : List Json)
  | obj (fields : List (String × Json))

/-- Test for the JSON null value (the Go-side counterpart is a nil
`any` value). -/
def Json.isNull : Json → Bool
  | .null => true
  | _ => false

/-- Go `error` values that the connection engine distinguishes:
`io.EOF`, `net.ErrClosed`, gorilla `*websocket.CloseError` (with its status
code and text), and any other error carrying only its message. -/
inductive GoError where
  | eof
  | errClosed
  | closeError (code : Int) (text : String)
  | otherErr (msg : String)
deriving DecidableEq, Repr

/-- Result of the Go `Error()` method on the modelled error values. -/
def GoError.message : GoError → String
  | .eof => "EOF"
  | .errClosed => "use of closed network connection"
  | .closeError code text => "websocket: close " ++ toString code ++ " " ++ text
  | .otherErr msg => msg

/-- WebSocket frame kinds (`websocket.TextMessage` = 1,
`websocket.BinaryMessage` = 2), as wrapped by the `http.MessageType` alias. -/
inductive MessageType where
  | text
  | binary
deriving DecidableEq, Repr

/-- PingData contains ping message metadata (from `http/baseconn.go`). -/
structure PingData where
  PingId : Int
  ConnId : String
  Name : String
deriving DecidableEq, Repr

/-- OutgoingMessage is the union type every outbound write is expressed as
(from `http/baseconn.go`): a data payload, a heartbeat, or an error.  As in
the Go struct, the three fields are optional pointers; the writer dispatches
by checking them in the order Ping, Error, Data. -/
structure OutgoingMessage (O : Type) where
  Data : Option O := none
  Ping : Option PingData := none
  Error : Option GoError := none
deriving DecidableEq, Repr

/-- Bytes written to the transport: either codec-produced bytes (abstract,
of type `B`) or the byte rendering of a JSON value built by the writer
itself (`writePing` / `writeError`). -/
inductive Payload (B : Type) where
  | fromCodec (bytes : B)
  | fromJson (j : Json)

/-- Reduction of an `Int` into the twos-complement int64 range, applied
wherever the Go code increments an `int64`. -/
def int64wrap (x : Int) : Int := (x + 2 ^ 63) % 2 ^ 64 - 2 ^ 63

def int64Min : Int := -(2 ^ 63)

def int64Max : Int := 2 ^ 63 - 1

/-- JSON object built by `BaseConn.writePing`: Go marshals the
`map[string]any` with keys `type`, `pingId`, `connId`, `name`; `json.Marshal`
emits map keys in sorted order. -/
def pingJson (p : PingData) : Json :=
  .obj [("connId", .str p.ConnId), ("name", .str p.Name),
        ("pingId", .num p.PingId), ("type", .str "ping")]

/-- JSON object built by `BaseConn.writeError`: the marshalled
`map[string]any` with keys `error` and `type` (sorted order). -/
def errorJson (e : GoError) : Json :=
  .obj [("error", .str e.message), ("type", .str "error")]

/-- Observable effect of one invocation of the serialized writer on a
dequeued `OutgoingMessage`: the transport writes it performs (frame kind and
payload of each `WriteMessage` call) and the error value it returns. -/
structure WriteStep (B : Type) where
  frames : List (MessageType × Payload B)
  result : Option GoError

/-- Dispatch function installed by `BaseConn.OnStart` as the body of the
serialized writer.  `encode` is `Codec.Encode`; `write` is
`conn.WriteMessage`, returning `none` on success. -/
def writerDispatch {O B : Type} (encode : O → Except GoError (B × MessageType))
    (write : MessageType → Payload B → Option GoError)
    (msg : OutgoingMessage O) : WriteStep B :=
  match msg.Ping with
  | some p =>
      ⟨[(.text, .fromJson (pingJson p))], write .text (.fromJson (pingJson p))⟩
  | none =>
    match msg.Error with
    | some e =>
        if e = .eof then ⟨[], none⟩
        else ⟨[(.text, .fromJson (errorJson e))], write .text (.fromJson (errorJson e))⟩
    | none =>
      match msg.Data with
      | some d =>
          match encode d with
          | .error err => ⟨[], some err⟩
          | .ok (bytes, mt) => ⟨[(mt, .fromCodec bytes)], write mt (.fromCodec bytes)⟩
      | none => ⟨[], none⟩

/-- Mutable fields of `BaseConn` relevant to identity, heartbeats and the
writer; `writerPresent` records whether `OnStart` has installed the Writer
(`b.Writer != nil`). -/
structure ConnState where
  NameStr : String := ""
  ConnIdStr : String := ""
  PingId : Int := 0
  writerPresent : Bool := false
deriving DecidableEq, Repr

/-- Name returns the connection name, defaulting it on first use
(from `BaseConn.Name`). -/
def ConnState.Name (s : ConnState) : String × ConnState :=
  if s.NameStr = "" then ("BaseConn", { s with NameStr := "BaseConn" })
  else (s.NameStr, s)

/-- ConnId returns the connection ID, generating one if not set (from
`BaseConn.ConnId`).  The external generator `gut.RandString(10, "")` is
passed in as `rand`. -/
def ConnState.ConnId (rand : String) (s : ConnState) : String × ConnState :=
  if s.ConnIdStr = "" then (rand, { s with ConnIdStr := rand })
  else (s.ConnIdStr, s)

/-- OnStart initializes the connection after WebSocket upgrade (from
`BaseConn.OnStart`): the log line evaluates `b.Name()` then `b.ConnId()`,
and the Writer is installed.  Returns nil. -/
def ConnState.OnStart (rand : String) (s : ConnState) : ConnState × Option GoError :=
  let (_, s1) := s.Name
  let (_, s2) := s1.ConnId rand
  ({ s2 with writerPresent := true }, none)

/-- SendPing increments the ping counter, then, when the Writer exists,
enqueues a heartbeat OutgoingMessage built from the incremented counter,
`b.ConnId()` and `b.Name()`; always returns nil (from `BaseConn.SendPing`). -/
def ConnState.SendPing (O : Type) (rand : String) (s : ConnState) :
    ConnState × List (OutgoingMessage O) × Option GoError :=
  let s1 := { s with PingId := int64wrap (s.PingId + 1) }
  if s1.writerPresent then
    let (cid, s2) := s1.ConnId rand
    let (nm, s3) := s2.Name
    (s3, [{ Ping := some { PingId := s1.PingId, ConnId := cid, Name := nm } }], none)
  else (s1, [], none)

/-- SendOutput enqueues a typed output message when the Writer exists
(from `BaseConn.SendOutput`). -/
def ConnState.SendOutput {O : Type} (s : ConnState) (msg : O) :
    ConnState × List (OutgoingMessage O) :=
  if s.writerPresent then (s, [{ Data := some msg }]) else (s, [])

/-- SendError enqueues an error message when the Writer exists
(from `BaseConn.SendError`). -/
def ConnState.SendError (O : Type) (s : ConnState) (e : GoError) :
    ConnState × List (OutgoingMessage O) :=
  if s.writerPresent then (s, [{ Error := some e }]) else (s, [])

/-- Iteration of `SendPing` driven by the heartbeat ticker: `n` consecutive
ticks from state `s`, collecting every message enqueued on the writer.  The
output type is instantiated at `Unit` since heartbeats never inhabit the
Data branch. -/
def sendPingRun (rand : String) : Nat → ConnState → ConnState × List (OutgoingMessage Unit)
  | 0, s => (s, [])
  | n + 1, s =>
      let r := ConnState.SendPing Unit rand s
      let rest := sendPingRun rand n r.1
      (rest.1, r.2.1 ++ rest.2)

/-- Heartbeat ids carried by the enqueued messages of a writer queue, in
enqueue order. -/
def pingIds (msgs : List (OutgoingMessage Unit)) : List Int :=
  (msgs.filterMap (·.Ping)).map (·.PingId)

/-! Connection engine run loop (`http/ws.go`, `WSHandleConn`). -/

/-- Gorilla `websocket.IsUnexpectedCloseError`: true exactly when the error
is a `*websocket.CloseError` whose code is not among the expected codes. -/
def IsUnexpectedCloseError (e : Option GoError) (expectedCodes : List Int) : Bool :=
  match e with
  | some (.closeError code _) => !(expectedCodes.contains code)
  | _ => false

/-- Error translation performed by the reader producer installed in
`WSHandleConn`: unexpected close errors (expected codes are
CloseGoingAway = 1001, CloseNoStatusReceived = 1005,
CloseAbnormalClosure = 1006) are replaced by `net.ErrClosed`. -/
def wsReaderWrap (e : Option GoError) : Option GoError :=
  if IsUnexpectedCloseError e [1001, 1005, 1006] then some .errClosed else e

/-- Result delivered on the reader output channel: a decoded value together
with an optional error (the `conc.Message` shape; `Value` is the zero value
when `Error` is set). -/
structure ReadResult (I : Type) where
  Value : I
  Error : Option GoError := none
deriving DecidableEq, Repr

/-- Outcome of one iteration of the `WSHandleConn` select loop:
`close` means the function returns (the connection transitions to Closing),
`continue_` means the loop runs another iteration. -/
inductive StepOutcome where
  | continue_
  | close
deriving DecidableEq, Repr

/-- Observable effect of the reader-result case of the `WSHandleConn` loop:
the loop outcome, the arguments passed to `ctx.OnError`, and the payloads
passed to `ctx.HandleMessage`. -/
structure ReadCase (I : Type) where
  outcome : StepOutcome
  onErrorArgs : List GoError
  handled : List I
deriving DecidableEq, Repr

/-- Body of the `case result := <-reader.OutputChan()` branch of
`WSHandleConn`.  An `io.EOF` error is skipped and the loop continues.  For a
`*websocket.CloseError` the switch statement has empty case bodies for
CloseAbnormalClosure and CloseNormalClosure (Go cases do not fall through),
so only CloseGoingAway (1001) returns; every other error reaches
`ctx.OnError`, and the loop returns exactly when that call is non-nil.  For
a payload, `ctx.HandleMessage` is invoked and its return value is
discarded. -/
def WSReadCase {I : Type} (onError : GoError → Option GoError)
    (handleMessage : I → Option GoError)
    (result : ReadResult I) : ReadCase I :=
  match result.Error with
  | some e =>
      if e = .eof then ⟨.continue_, [], []⟩
      else
        match e with
        | .closeError code _ =>
            if code = 1001 then ⟨.close, [], []⟩
            else
              match onError e with
              | some _ => ⟨.close, [e], []⟩
              | none => ⟨.continue_, [e], []⟩
        | _ =>
            match onError e with
            | some _ => ⟨.close, [e], []⟩
            | none => ⟨.continue_, [e], []⟩
  | none =>
      let _ := handleMessage result.Value
      ⟨.continue_, [], [result.Value]⟩

/-- Composition of the reader producer error translation and the loop body:
what the engine does with one raw `ctx.ReadMessage` result. -/
def WSReadStep {I : Type} (onError : GoError → Option GoError)
    (handleMessage : I → Option GoError)
    (raw : ReadResult I) : ReadCase I :=
  WSReadCase onError handleMessage { raw with Error := wsReaderWrap raw.Error }

/-- Default `BaseConn.OnError`: returns the error unchanged (so the
connection closes). -/
def defaultOnError (e : GoError) : Option GoError := some e

/-! The grpcws streaming bridge (`grpcws/conn.go`, `grpcws/server_stream.go`,
`grpcws/client_stream.go`, `grpcws/bidi_stream.go`). -/

def TypeData : String := "data"

def TypeError : String := "error"

def TypeStreamEnd : String := "stream_end"

def TypePing : String := "ping"

def TypePong : String := "pong"

def TypeCancel : String := "cancel"

def TypeEndSend : String := "end_send"

/-- ControlMessage is the JSON envelope for all grpcws WebSocket messages.
The Go field Type (JSON key "type") is spelled `Ty` because `Type` is
reserved in Lean; `Data` is the generic JSON payload (a nil `any` is
`none`); `Error` and `PingId` carry the remaining tagged fields.  All fields
but Type carry the omitempty JSON option. -/
structure ControlMessage where
  Ty : String := ""
  Data : Option Json := none
  Error : String := ""
  PingId : Int := 0

/-- Envelope built by `baseGRPCConn.sendStreamEnd`. -/
def streamEndMsg : ControlMessage := { Ty := TypeStreamEnd }

/-- Envelope built by `baseGRPCConn.sendError`. -/
def errorEnvelope (errMsg : String) : ControlMessage := { Ty := TypeError, Error := errMsg }

/-- GRPCWSCodec.EncodeData wraps a proto response in a data envelope.  The
external `protojson.MarshalOptions.Marshal` call followed by
`json.Unmarshal` of the produced bytes into a generic value is modelled by
the caller-supplied `marshal`, producing the parsed JSON tree (either step
failing is a `.error`). -/
def GRPCWSCodec.EncodeData {Resp : Type} (marshal : Resp → Except String Json)
    (resp : Resp) : Except String ControlMessage :=
  match marshal resp with
  | .error e => .error e
  | .ok dataMap => .ok { Ty := TypeData, Data := some dataMap }

/-- GRPCWSCodec.DecodeRequest parses a request from the data field of a
control message: the field is re-marshalled to bytes and decoded by
`protojson.UnmarshalOptions.Unmarshal` into a fresh `NewRequest()` value;
both external steps are modelled by the caller-supplied `unmarshal` on the
JSON tree (a missing field is the JSON null). -/
def GRPCWSCodec.DecodeRequest {Req : Type} (unmarshal : Json → Except String Req)
    (msg : ControlMessage) : Except String Req :=
  unmarshal (msg.Data.getD .null)

/-- Serialization of a ControlMessage by `json.Marshal` (used by
`GRPCWSCodec.Encode`): struct fields are emitted in declaration order and
the omitempty fields data, error and pingId are dropped at their zero
values. -/
def marshalControlMessage (m : ControlMessage) : Json :=
  .obj ([("type", .str m.Ty)]
    ++ (match m.Data with | some d => [("data", d)] | none => [])
    ++ (if m.Error = "" then [] else [("error", .str m.Error)])
    ++ (if m.PingId = 0 then [] else [("pingId", .num m.PingId)]))

/-- Processing of one JSON object field by `json.Unmarshal` into a
ControlMessage: known keys decode into their typed fields (JSON null leaves
a field untouched, except that a null `data` payload is the nil `any`),
unknown keys are ignored, and a type mismatch is an error.  An integer
outside the int64 range fails to decode into PingId. -/
def setCMField (m : ControlMessage) (k : String) (v : Json) :
    Except String ControlMessage :=
  if k = "type" then
    match v with
    | .str s => .ok { m with Ty := s }
    | .null => .ok m
    | _ => .error "json: cannot unmarshal value into field type of type string"
  else if k = "data" then
    .ok { m with Data := if v.isNull then none else some v }
  else if k = "error" then
    match v with
    | .str s => .ok { m with Error := s }
    | .null => .ok m
    | _ => .error "json: cannot unmarshal value into field error of type string"
  else if k = "pingId" then
    match v with
    | .num n =>
        if int64Min ≤ n ∧ n ≤ int64Max then .ok { m with PingId := n }
        else .error "json: cannot unmarshal number into field pingId of type int64"
    | .null => .ok m
    | _ => .error "json: cannot unmarshal value into field pingId of type int64"
  else .ok m

/-- Fold of `setCMField` over the fields of a JSON object, in order (a later
duplicate key overwrites an earlier one, as in encoding/json). -/
def unmarshalCMFields : List (String × Json) → ControlMessage →
    Except String ControlMessage
  | [], m => .ok m
  | (k, v) :: rest, m =>
      match setCMField m k v with
      | .error e => .error e
      | .ok m2 => unmarshalCMFields rest m2

/-- GRPCWSCodec.Decode parses a control message from raw WebSocket data via
`json.Unmarshal`; the raw bytes are modelled by the JSON value they parse
to.  Unmarshalling JSON null into a struct is a no-op; any other non-object
value is a type error. -/
def GRPCWSCodec.Decode (data : Json) (msgType : MessageType) :
    Except String ControlMessage :=
  match data with
  | .obj fields => unmarshalCMFields fields {}
  | .null => .ok {}
  | _ => .error "json: cannot unmarshal value into Go value of type ControlMessage"

/-- GRPCWSCodec.Encode marshals a control message envelope as a JSON text
frame.  `json.Marshal` cannot fail on the modelled values, so the Go error
result is always nil and is elided. -/
def GRPCWSCodec.Encode (msg : ControlMessage) : Json × MessageType :=
  (marshalControlMessage msg, .text)

/-- Outcome of one `stream.Recv()` call on the upstream gRPC stream: a
response, `io.EOF`, or another error carrying its message string. -/
inductive RecvResult (R : Type) where
  | ok (resp : R)
  | eofErr
  | recvErr (msg : String)

/-- Observable trace of one run of a `forwardResponses` forwarder task:
the envelopes enqueued on the writer (in order), whether `stream.Recv`
returned `io.EOF`, and the message of a non-EOF `stream.Recv` error when one
occurred. -/
structure ForwardRun where
  sent : List ControlMessage
  recvEOF : Bool
  recvErrMsg : Option String

/-- Forwarder loop shared verbatim by `ServerStreamConn.forwardResponses`
and `BidiStreamConn.forwardResponses`, run over the sequence of results the
upstream `Recv` produces.  `ctxDone` tells whether the cancellation context
has fired at the moment a `Recv` error is examined.  SendOutput enqueues
unconditionally here because OnStart installs the writer before spawning the
forwarder goroutine.  An exhausted trace models a `Recv` call that never
returns. -/
def forwardResponses {R : Type} (marshal : R → Except String Json)
    (ctxDone : Bool) : List (RecvResult R) → ForwardRun
  | [] => ⟨[], false, none⟩
  | .eofErr :: _ => ⟨[streamEndMsg], true, none⟩
  | .recvErr m :: _ =>
      if ctxDone then ⟨[], false, some m⟩
      else ⟨[errorEnvelope m], false, some m⟩
  | .ok resp :: rest =>
      match GRPCWSCodec.EncodeData marshal resp with
      | .error m => ⟨[errorEnvelope m], false, none⟩
      | .ok dataMsg =>
          let run := forwardResponses marshal ctxDone rest
          ⟨dataMsg :: run.sent, run.recvEOF, run.recvErrMsg⟩

/-- Terminal envelopes of the bridge protocol: stream_end and error. -/
def isTerminalEnvelope (m : ControlMessage) : Bool :=
  m.Ty == TypeStreamEnd || m.Ty == TypeError

/-- Observable effect of one `ClientStreamConn.HandleMessage` call: the
envelopes enqueued (in order), the error returned to the engine, and
whether `stream.CloseAndRecv` and the cancellation were invoked. -/
structure HandleOutcome where
  sent : List ControlMessage
  err : Option String
  closeAndRecvCalled : Bool
  cancelled : Bool

/-- ClientStreamConn.HandleMessage (`grpcws/client_stream.go`), with the
upstream stream operations supplied as values: `send` gives the outcome of
`stream.Send` and `closeAndRecv` the outcome of `stream.CloseAndRecv`;
`marshal` and `unmarshal` are the codec parameters of
`GRPCWSCodec.EncodeData` and `GRPCWSCodec.DecodeRequest`. -/
def ClientStreamHandleMessage {Req Resp : Type}
    (marshal : Resp → Except String Json)
    (unmarshal : Json → Except String Req)
    (send : Req → Option String)
    (closeAndRecv : Except String Resp)
    (msg : ControlMessage) : HandleOutcome :=
  if msg.Ty = TypeData then
    match GRPCWSCodec.DecodeRequest unmarshal msg with
    | .error e => ⟨[errorEnvelope e], none, false, false⟩
    | .ok req =>
        match send req with
        | some e => ⟨[errorEnvelope e], some e, false, false⟩
        | none => ⟨[], none, false, false⟩
  else if msg.Ty = TypeEndSend then
    match closeAndRecv with
    | .error e => ⟨[errorEnvelope e], some e, true, false⟩
    | .ok resp =>
        match GRPCWSCodec.EncodeData marshal resp with
        | .error e => ⟨[errorEnvelope e], some e, true, false⟩
        | .ok dataMsg => ⟨[dataMsg, streamEndMsg], none, true, false⟩
  else if msg.Ty = TypePong then ⟨[], none, false, false⟩
  else if msg.Ty = TypeCancel then ⟨[], none, false, true⟩
  else ⟨[], none, false, false⟩

/-! Helper lemmas. -/

/-- Reducing an `Int` already inside the int64 range is the identity. -/
theorem int64wrap_eq_self (x : Int) (hlo : int64Min ≤ x) (hhi : x ≤ int64Max) :
    int64wrap x = x := by
  unfold int64wrap int64Min int64Max at *
  have h1 : (0 : Int) ≤ x + 2 ^ 63 := by omega
  have h2 : x + 2 ^ 63 < 2 ^ 64 := by omega
  rw [Int.emod_eq_of_lt h1 h2]
  omega

/-- Test against the null JSON value, for values known to differ from it. -/
theorem Json.isNull_eq_false {j : Json} (h : j ≠ .null) : j.isNull = false := by
  cases j <;> simp_all [Json.isNull]

/-! Claim C1. -/

/-- C1 counterexample: a normal close (code 1000) from the peer is converted
by the reader producer to `net.ErrClosed` because 1000 is absent from the
expected-close list, so the run loop does consult on-error for it (with the
default on-error), and with a masking on-error the loop even continues
instead of transitioning to Closing — contradicting the claim that a normal
close reaches Closing without consulting on-error. -/
theorem normalClose_consults_onError :
    (WSReadStep defaultOnError (fun _ : Nat => none)
        { Value := 0, Error := some (.closeError 1000 "normal closure") }).onErrorArgs
      = [.errClosed]
    ∧ (WSReadStep (fun _ => none) (fun _ : Nat => none)
        { Value := 0, Error := some (.closeError 1000 "normal closure") }).outcome
      = .continue_ := by
  exact ⟨rfl, rfl⟩

/-- C1 (amended): in the run loop, only a going-away close (code 1001)
transitions to Closing without consulting on-error and without sending any
envelope; a normal close (code 1000) is converted by the reader to a generic
connection-closed error and passed to on-error, closing exactly when
on-error returns non-nil; an EOF result is skipped and the loop continues;
and every other error is likewise passed to on-error, the connection
continuing only if on-error returns nil. -/
theorem readError_classification {I : Type} (onError : GoError → Option GoError)
    (handleMessage : I → Option GoError) (v : I) (text msg : String) :
    (WSReadStep onError handleMessage
        { Value := v, Error := some (.closeError 1001 text) } = ⟨.close, [], []⟩)
    ∧ (WSReadStep onError handleMessage
        { Value := v, Error := some (.closeError 1000 text) }
        = match onError .errClosed with
          | some _ => ⟨.close, [.errClosed], []⟩
          | none => ⟨.continue_, [.errClosed], []⟩)
    ∧ (WSReadStep onError handleMessage { Value := v, Error := some .eof }
        = ⟨.continue_, [], []⟩)
    ∧ (WSReadStep onError handleMessage { Value := v, Error := some (.otherErr msg) }
        = match onError (.otherErr msg) with
          | some _ => ⟨.close, [.otherErr msg], []⟩
          | none => ⟨.continue_, [.otherErr msg], []⟩) := by
  refine ⟨rfl, ?_, rfl, ?_⟩
  · cases h : onError .errClosed <;>
      simp [WSReadStep, WSReadCase, wsReaderWrap, IsUnexpectedCloseError, h]
  · cases h : onError (.otherErr msg) <;>
      simp [WSReadStep, WSReadCase, wsReaderWrap, IsUnexpectedCloseError, h]

/-! Claim C2. -/

/-- C2 counterexample: a decoded payload whose handler returns a non-nil
error, with the default (non-masking) on-error, leaves the loop in the
continue state and never consults on-error — contradicting the claim that a
handler error closes the connection. -/
theorem handlerError_not_closing :
    (WSReadStep defaultOnError (fun _ : Nat => some (.otherErr "handler failed"))
        { Value := 7 }).outcome = .continue_
    ∧ (WSReadStep defaultOnError (fun _ : Nat => some (.otherErr "handler failed"))
        { Value := 7 }).onErrorArgs = [] := by
  exact ⟨rfl, rfl⟩

/-- C2 (amended): the run loop discards the return value of handle-message:
for every decoded inbound payload the loop continues, on-error is not
consulted, and the payload is handed to handle-message, regardless of the
error the handler returns. -/
theorem handleMessage_result_ignored {I : Type} (onError : GoError → Option GoError)
    (handleMessage : I → Option GoError) (v : I) :
    WSReadStep onError handleMessage { Value := v } = ⟨.continue_, [], [v]⟩ := rfl

/-! Claim C3. -/

/-- C3: when the serialized writer dequeues a Terminal (error-branch)
message, an `io.EOF` error produces no transport write and a nil return,
while any other error produces exactly one JSON text frame whose object has
exactly the fields type = "error" and error = the error message, and the
writer returns the transport write outcome. -/
theorem terminal_dispatch {O B : Type} (encode : O → Except GoError (B × MessageType))
    (write : MessageType → Payload B → Option GoError) (e : GoError) (h : e ≠ .eof) :
    writerDispatch encode write { Error := some e }
      = ⟨[(.text, .fromJson (.obj [("error", .str e.message), ("type", .str "error")]))],
         write .text (.fromJson (errorJson e))⟩
    ∧ writerDispatch encode write { Error := some GoError.eof } = ⟨[], none⟩ := by
  refine ⟨?_, rfl⟩
  simp [writerDispatch, errorJson, h]

/-- C3 witness: the terminal dispatch on a concrete non-EOF error. -/
theorem terminal_dispatch_witness :
    writerDispatch (fun _ : Unit => Except.ok ((), MessageType.text))
        (fun _ _ => (none : Option GoError)) { Error := some (GoError.otherErr "boom") }
      = ⟨[(.text, .fromJson (.obj [("error", .str "boom"), ("type", .str "error")]))],
         none⟩ :=
  (terminal_dispatch (fun _ : Unit => Except.ok ((), MessageType.text))
    (fun _ _ => none) (GoError.otherErr "boom") (by decide)).1

/-! Claim C6. -/

/-- C6: every heartbeat the writer dequeues is emitted as a JSON text frame
whose object has exactly the fields type = "ping", pingId, connId and name
from the heartbeat data, for every codec (the ping branch never invokes the
codec encode), and the writer returns the transport write outcome. -/
theorem heartbeat_frame {O B : Type} (encode : O → Except GoError (B × MessageType))
    (write : MessageType → Payload B → Option GoError)
    (d : Option O) (er : Option GoError) (p : PingData) :
    writerDispatch encode write { Data := d, Ping := some p, Error := er }
      = ⟨[(.text, .fromJson (.obj [("connId", .str p.ConnId), ("name", .str p.Name),
            ("pingId", .num p.PingId), ("type", .str "ping")]))],
         write .text (.fromJson (pingJson p))⟩ := rfl

/-! Claim C10. -/

/-- C10: with no Writer installed (before OnStart), SendOutput, SendError
and SendPing are total and enqueue nothing; SendPing still increments the
ping counter (with int64 wrap-around semantics; a genuine increment inside
the int64 range) and returns nil. -/
theorem send_before_start {O : Type} (s : ConnState) (msg : O) (e : GoError)
    (rand : String) (h : s.writerPresent = false) :
    s.SendOutput msg = (s, [])
    ∧ ConnState.SendError O s e = (s, [])
    ∧ (ConnState.SendPing O rand s).2 = ([], none)
    ∧ (ConnState.SendPing O rand s).1 = { s with PingId := int64wrap (s.PingId + 1) }
    ∧ (0 ≤ s.PingId → s.PingId < int64Max →
        (ConnState.SendPing O rand s).1.PingId = s.PingId + 1) := by
  refine ⟨?_, ?_, ?_, ?_, ?_⟩
  · simp [ConnState.SendOutput, h]
  · simp [ConnState.SendError, h]
  · simp [ConnState.SendPing, h]
  · simp [ConnState.SendPing, h]
  · intro h0 hlt
    simp [ConnState.SendPing, h]
    exact int64wrap_eq_self _ (by unfold int64Min; omega) (by omega)

/-- C10 witness: the three sends on a concrete writer-less connection
state. -/
theorem send_before_start_witness :
    (ConnState.SendOutput { PingId := 5 } (Json.str "x")
        = ({ PingId := 5 }, []))
    ∧ (ConnState.SendError Json { PingId := 5 } GoError.eof = ({ PingId := 5 }, []))
    ∧ ((ConnState.SendPing Json "rnd" { PingId := 5 }).2 = ([], none))
    ∧ ((ConnState.SendPing Json "rnd" { PingId := 5 }).1.PingId = 6) := by
  have h := send_before_start (O := Json) { PingId := 5 } (Json.str "x") GoError.eof "rnd" rfl
  exact ⟨h.1, h.2.1, h.2.2.1, h.2.2.2.2 (by decide) (by decide)⟩

/-! Claim C7. -/

/-- Effect of one SendPing on an open connection (Writer present): the
writer flag is preserved, the counter advances by one wrapped increment, and
exactly one heartbeat with the incremented counter value is enqueued. -/
theorem SendPing_open (O : Type) (rand : String) (s : ConnState)
    (hw : s.writerPresent = true) :
    (ConnState.SendPing O rand s).1.writerPresent = true
    ∧ (ConnState.SendPing O rand s).1.PingId = int64wrap (s.PingId + 1)
    ∧ ((ConnState.SendPing O rand s).2.1.filterMap (·.Ping)).map (·.PingId)
        = [int64wrap (s.PingId + 1)] := by
  unfold ConnState.SendPing ConnState.ConnId ConnState.Name
  simp only [hw, if_true]
  split_ifs <;> simp

/-- Unfolding of a shifted integer range by one step. -/
theorem range_map_shift (base : Int) (m : Nat) :
    (List.range (m + 1)).map (fun (k : Nat) => base + 1 + (k : Int))
      = (base + 1) :: (List.range m).map (fun (k : Nat) => base + 1 + 1 + (k : Int)) := by
  rw [List.range_succ_eq_map, List.map_cons, List.map_map]
  refine List.cons_eq_cons.mpr ⟨by simp, ?_⟩
  apply List.map_congr_left
  intro a _
  simp only [Function.comp_apply]
  push_cast
  ring

/-- Heartbeat ids produced by `n` ticks from any open state whose counter
stays inside the int64 range: the k-th enqueued heartbeat (0-based) carries
id `PingId + 1 + k`. -/
theorem sendPingRun_ids (rand : String) :
    ∀ (n : Nat) (s : ConnState), s.writerPresent = true →
      0 ≤ s.PingId → s.PingId + n ≤ int64Max →
      pingIds (sendPingRun rand n s).2
        = (List.range n).map (fun (k : Nat) => s.PingId + 1 + (k : Int)) := by
  intro n
  induction n with
  | zero => intro s _ _ _; simp [sendPingRun, pingIds]
  | succ m ih =>
      intro s hw h0 hub
      have hfields := SendPing_open Unit rand s hw
      have hwrap : int64wrap (s.PingId + 1) = s.PingId + 1 := by
        refine int64wrap_eq_self _ ?_ ?_
        · unfold int64Min; omega
        · omega
      have hrange : s.PingId + 1 + (m : Int) ≤ int64Max := by push_cast; omega
      have hrec := ih ((ConnState.SendPing Unit rand s).1)
        hfields.1 (by rw [hfields.2.1, hwrap]; omega)
        (by rw [hfields.2.1, hwrap]; exact_mod_cast hrange)
      show pingIds ((ConnState.SendPing Unit rand s).2.1
          ++ (sendPingRun rand m (ConnState.SendPing Unit rand s).1).2)
        = (List.range (m + 1)).map (fun (k : Nat) => s.PingId + 1 + (k : Int))
      rw [pingIds, List.filterMap_append, List.map_append]
      rw [show ((ConnState.SendPing Unit rand s).2.1.filterMap (·.Ping)).map (·.PingId)
            = [int64wrap (s.PingId + 1)] from hfields.2.2]
      rw [← pingIds, hrec, hfields.2.1, hwrap, List.singleton_append,
        range_map_shift s.PingId m]

/-- C7: on an open connection whose counter starts at zero, each heartbeat
tick increments the counter exactly once before enqueueing, so `n` ticks
enqueue heartbeats whose ids are exactly 1, 2, ..., n — pairwise strictly
increasing and beginning at 1. -/
theorem heartbeat_counter (rand : String) (s : ConnState) (n : Nat)
    (hw : s.writerPresent = true) (h0 : s.PingId = 0) (hn : (n : Int) ≤ int64Max) :
    pingIds (sendPingRun rand n s).2 = (List.range n).map (fun (k : Nat) => (k : Int) + 1)
    ∧ (pingIds (sendPingRun rand n s).2).Pairwise (· < ·)
    ∧ (0 < n → (pingIds (sendPingRun rand n s).2).head? = some 1) := by
  have hids : pingIds (sendPingRun rand n s).2
      = (List.range n).map (fun (k : Nat) => (k : Int) + 1) := by
    rw [sendPingRun_ids rand n s hw (by omega) (by omega)]
    apply List.map_congr_left
    intro a _
    omega
  refine ⟨hids, ?_, ?_⟩
  · rw [hids, List.pairwise_map]
    refine (List.pairwise_lt_range n).imp ?_
    intro a b hab
    omega
  · intro hpos
    rw [hids]
    obtain ⟨m, rfl⟩ := Nat.exists_eq_succ_of_ne_zero (Nat.pos_iff_ne_zero.mp hpos)
    rw [List.range_succ_eq_map]
    simp

/-- C7 witness: three ticks on a fresh open connection carry ids 1, 2, 3. -/
theorem heartbeat_counter_witness :
    pingIds (sendPingRun "rnd" 3 { writerPresent := true }).2 = [1, 2, 3]
    ∧ (pingIds (sendPingRun "rnd" 3 { writerPresent := true }).2).Pairwise (· < ·) := by
  have h := heartbeat_counter "rnd" { writerPresent := true } 3 rfl rfl (by decide)
  exact ⟨by rw [h.1]; rfl, h.2.1⟩

/-! Claim C9. -/

/-- C9: with the external generator returning a ten-character string, ConnId
never returns the empty string, every later call returns what the first call
returned, and OnStart (which runs before the Writer exists and hence before
any write) forces generation: after OnStart the stored id is non-empty and
ConnId returns it unchanged. -/
theorem connId_nonempty_stable (rand : String) (s : ConnState)
    (hlen : rand.length = 10) :
    (ConnState.ConnId rand s).1 ≠ ""
    ∧ (ConnState.ConnId rand (ConnState.ConnId rand s).2).1
        = (ConnState.ConnId rand s).1
    ∧ ((ConnState.OnStart rand s).1.writerPresent = true
       ∧ (ConnState.OnStart rand s).1.ConnIdStr ≠ ""
       ∧ (ConnState.ConnId rand (ConnState.OnStart rand s).1).1
           = (ConnState.OnStart rand s).1.ConnIdStr) := by
  have hrand : rand ≠ "" := by
    intro h
    rw [h] at hlen
    simp at hlen
  by_cases hc : s.ConnIdStr = "" <;> by_cases hn : s.NameStr = "" <;>
    simp_all [ConnState.ConnId, ConnState.OnStart, ConnState.Name]

/-- C9 witness: a fresh connection with a concrete generated id. -/
theorem connId_nonempty_stable_witness :
    (ConnState.ConnId "abcdefghij" {}).1 ≠ ""
    ∧ (ConnState.ConnId "abcdefghij" (ConnState.ConnId "abcdefghij" ({} : ConnState)).2).1
        = (ConnState.ConnId "abcdefghij" ({} : ConnState)).1 := by
  have h := connId_nonempty_stable "abcdefghij" {} (by decide)
  exact ⟨h.1, h.2.1⟩

/-! Claim C4. -/

/-- C4: in one forwarder run (shared by the server-streaming and
bidirectional bridges), a stream_end envelope is enqueued exactly when the
upstream Recv returned io.EOF; at most one terminal envelope (stream_end or
error) is enqueued; and when Recv returns a non-EOF error, an error envelope
for its message is enqueued unless the cancellation context has fired, in
which case no terminal envelope at all is enqueued. -/
theorem forwarder_termination {R : Type} (marshal : R → Except String Json)
    (ctxDone : Bool) (trace : List (RecvResult R)) :
    (streamEndMsg ∈ (forwardResponses marshal ctxDone trace).sent
        ↔ (forwardResponses marshal ctxDone trace).recvEOF = true)
    ∧ ((forwardResponses marshal ctxDone trace).sent.countP isTerminalEnvelope ≤ 1)
    ∧ (∀ m, (forwardResponses marshal ctxDone trace).recvErrMsg = some m →
        (if ctxDone
         then (forwardResponses marshal ctxDone trace).sent.countP isTerminalEnvelope = 0
         else errorEnvelope m ∈ (forwardResponses marshal ctxDone trace).sent)) := by
  induction trace with
  | nil =>
      refine ⟨by simp [forwardResponses], by simp [forwardResponses], ?_⟩
      intro m hm
      simp [forwardResponses] at hm
  | cons head rest ih =>
      cases head with
      | eofErr =>
          refine ⟨by simp [forwardResponses], ?_, ?_⟩
          · simp [forwardResponses, List.countP_cons]
            split <;> omega
          · intro m hm
            simp [forwardResponses] at hm
      | recvErr emsg =>
          by_cases hd : ctxDone
          · refine ⟨?_, ?_, ?_⟩
            · simp [forwardResponses, hd]
            · simp [forwardResponses, hd]
            · intro m hm
              simp [forwardResponses, hd] at hm ⊢
          · refine ⟨?_, ?_, ?_⟩
            · simp [forwardResponses, hd, streamEndMsg, errorEnvelope,
                TypeStreamEnd, TypeError]
            · simp [forwardResponses, hd, List.countP_cons]
              split <;> omega
            · intro m hm
              simp [forwardResponses, hd] at hm ⊢
              simp [hm]
      | ok resp =>
          cases hm : marshal resp with
          | error emsg =>
              refine ⟨?_, ?_, ?_⟩
              · simp [forwardResponses, GRPCWSCodec.EncodeData, hm, streamEndMsg,
                  errorEnvelope, TypeStreamEnd, TypeError]
              · simp [forwardResponses, GRPCWSCodec.EncodeData, hm, List.countP_cons]
                split <;> omega
              · intro m hmem
                simp [forwardResponses, GRPCWSCodec.EncodeData, hm] at hmem
          | ok d =>
              obtain ⟨ih1, ih2, ih3⟩ := ih
              refine ⟨?_, ?_, ?_⟩
              · simp only [forwardResponses, GRPCWSCodec.EncodeData, hm,
                  List.mem_cons]
                rw [← ih1]
                constructor
                · rintro (h | h)
                  · exact absurd h (by simp [streamEndMsg, TypeStreamEnd, TypeData])
                  · exact h
                · intro h
                  exact Or.inr h
              · simp only [forwardResponses, GRPCWSCodec.EncodeData, hm,
                  List.countP_cons]
                have : isTerminalEnvelope { Ty := TypeData, Data := some d } = false := rfl
                simp [this]
                exact ih2
              · intro m hmem
                simp only [forwardResponses, GRPCWSCodec.EncodeData, hm] at hmem ⊢
                have h3 := ih3 m hmem
                by_cases hd : ctxDone
                · simp only [hd, if_true] at h3 ⊢
                  simp only [List.countP_cons]
                  have : isTerminalEnvelope { Ty := TypeData, Data := some d } = false := rfl
                  simp [this, h3]
                · simp only [hd, if_false] at h3 ⊢
                  exact List.mem_cons_of_mem _ h3

/-- C4 witness: a run delivering one response and then failing with the
cancellation context unfired enqueues one data envelope and one terminal
error envelope and no stream_end. -/
theorem forwarder_termination_witness :
    (¬ (streamEndMsg ∈ (forwardResponses (fun j : Json => Except.ok j) false
          [RecvResult.ok (Json.str "v"), RecvResult.recvErr "upstream failed"]).sent))
    ∧ ((forwardResponses (fun j : Json => Except.ok j) false
          [RecvResult.ok (Json.str "v"), RecvResult.recvErr "upstream failed"]).sent.countP
            isTerminalEnvelope ≤ 1)
    ∧ errorEnvelope "upstream failed" ∈ (forwardResponses (fun j : Json => Except.ok j) false
          [RecvResult.ok (Json.str "v"), RecvResult.recvErr "upstream failed"]).sent := by
  have h := forwarder_termination (fun j : Json => Except.ok j) false
    [RecvResult.ok (Json.str "v"), RecvResult.recvErr "upstream failed"]
  refine ⟨?_, h.2.1, ?_⟩
  · intro hmem
    have := h.1.mp hmem
    simp [forwardResponses, GRPCWSCodec.EncodeData] at this
  · have := h.2.2 "upstream failed" (by rfl)
    simpa using this

/-! Claim C5. -/

/-- C5: when the client-streaming bridge handles an end_send envelope, it
calls CloseAndRecv, and when that call and the encoding of its terminal
response succeed it enqueues exactly the encoded data envelope followed by a
stream_end envelope, returning nil to the engine. -/
theorem endSend_response_then_streamEnd {Req Resp : Type}
    (marshal : Resp → Except String Json) (unmarshal : Json → Except String Req)
    (send : Req → Option String) (closeAndRecv : Except String Resp)
    (msg : ControlMessage) (resp : Resp) (dataMsg : ControlMessage)
    (hmsg : msg.Ty = TypeEndSend)
    (hrecv : closeAndRecv = .ok resp)
    (henc : GRPCWSCodec.EncodeData marshal resp = .ok dataMsg) :
    (ClientStreamHandleMessage marshal unmarshal send closeAndRecv msg).closeAndRecvCalled
      = true
    ∧ (ClientStreamHandleMessage marshal unmarshal send closeAndRecv msg).sent
        = [dataMsg, streamEndMsg]
    ∧ dataMsg.Ty = TypeData
    ∧ (ClientStreamHandleMessage marshal unmarshal send closeAndRecv msg).err = none := by
  subst hrecv
  have hty : dataMsg.Ty = TypeData := by
    cases hm : marshal resp with
    | error e => simp [GRPCWSCodec.EncodeData, hm] at henc
    | ok d =>
        simp [GRPCWSCodec.EncodeData, hm] at henc
        rw [← henc]
  refine ⟨?_, ?_, hty, ?_⟩ <;>
    simp [ClientStreamHandleMessage, hmsg, henc, TypeData, TypeEndSend]

/-- C5 witness: an end_send envelope on a concrete client-streaming bridge
whose upstream terminal response encodes successfully. -/
theorem endSend_response_then_streamEnd_witness :
    (ClientStreamHandleMessage (fun j : Json => Except.ok j)
        (fun j => Except.ok j) (fun _ : Json => none)
        (Except.ok (Json.str "summary")) { Ty := TypeEndSend }).sent
      = [{ Ty := TypeData, Data := some (Json.str "summary") }, streamEndMsg]
    ∧ (ClientStreamHandleMessage (fun j : Json => Except.ok j)
        (fun j => Except.ok j) (fun _ : Json => none)
        (Except.ok (Json.str "summary")) { Ty := TypeEndSend }).closeAndRecvCalled = true := by
  have h := endSend_response_then_streamEnd (fun j : Json => Except.ok j)
    (fun j => Except.ok j) (fun _ : Json => none) (Except.ok (Json.str "summary"))
    { Ty := TypeEndSend } (Json.str "summary")
    { Ty := TypeData, Data := some (Json.str "summary") } rfl rfl rfl
  exact ⟨h.2.1, h.1⟩

/-! Claim C8. -/

/-- Reduction of `setCMField` at the key "type" with a string value. -/
theorem setCMField_type (m : ControlMessage) (s : String) :
    setCMField m "type" (.str s) = .ok { m with Ty := s } := rfl

/-- Reduction of `setCMField` at the key "data". -/
theorem setCMField_data (m : ControlMessage) (v : Json) :
    setCMField m "data" v
      = .ok { m with Data := if v.isNull then none else some v } := rfl

/-- Reduction of `setCMField` at the key "error" with a string value. -/
theorem setCMField_error (m : ControlMessage) (s : String) :
    setCMField m "error" (.str s) = .ok { m with Error := s } := rfl

/-- Reduction of `setCMField` at the key "pingId" with an integer inside the
int64 range. -/
theorem setCMField_pingId (m : ControlMessage) (n : Int)
    (hlo : int64Min ≤ n) (hhi : n ≤ int64Max) :
    setCMField m "pingId" (.num n) = .ok { m with PingId := n } := by
  have h : setCMField m "pingId" (.num n)
      = if int64Min ≤ n ∧ n ≤ int64Max then Except.ok { m with PingId := n }
        else Except.error
          "json: cannot unmarshal number into field pingId of type int64" := rfl
  rw [h, if_pos ⟨hlo, hhi⟩]

/-- C8: Decode inverts Encode on every canonical ControlMessage envelope:
any envelope whose pingId lies in the int64 range (the Go field type) and
whose data payload, when present, is a real JSON value rather than JSON null
(a nil payload is the absent field) decodes back to itself, covering data,
error, stream_end, ping, pong, cancel and end_send envelopes and in
particular ping/pong ids zero and 2^63 - 1. -/
theorem controlMessage_roundtrip (m : ControlMessage)
    (hlo : int64Min ≤ m.PingId) (hhi : m.PingId ≤ int64Max)
    (hdata : m.Data ≠ some Json.null) :
    GRPCWSCodec.Decode (GRPCWSCodec.Encode m).1 (GRPCWSCodec.Encode m).2
      = .ok m := by
  obtain ⟨ty, data, err, pingId⟩ := m
  simp only [GRPCWSCodec.Encode, GRPCWSCodec.Decode, marshalControlMessage]
  have hping : setCMField { Ty := ty, Data := data, Error := err, PingId := 0 }
      "pingId" (.num pingId)
      = .ok { Ty := ty, Data := data, Error := err, PingId := pingId } :=
    setCMField_pingId _ _ hlo hhi
  cases data with
  | none =>
      by_cases herr : err = "" <;> by_cases hp : pingId = 0 <;>
        simp_all [unmarshalCMFields, setCMField_type, setCMField_data,
          setCMField_error]
  | some d =>
      have hd : d.isNull = false := by
        apply Json.isNull_eq_false
        intro h
        exact hdata (by rw [h])
      by_cases herr : err = "" <;> by_cases hp : pingId = 0 <;>
        simp_all [unmarshalCMFields, setCMField_type, setCMField_data,
          setCMField_error]

/-- C8 witness: round trips of a ping envelope with the maximum int64 id and
a pong envelope with id zero. -/
theorem controlMessage_roundtrip_witness :
    GRPCWSCodec.Decode
        (GRPCWSCodec.Encode { Ty := "ping", PingId := 9223372036854775807 }).1
        (GRPCWSCodec.Encode { Ty := "ping", PingId := 9223372036854775807 }).2
      = .ok { Ty := "ping", PingId := 9223372036854775807 }
    ∧ GRPCWSCodec.Decode (GRPCWSCodec.Encode { Ty := "pong" }).1
        (GRPCWSCodec.Encode { Ty := "pong" }).2
      = .ok { Ty := "pong" } := by
  constructor
  · exact controlMessage_roundtrip _ (by decide) (by decide) (by simp)
  · exact controlMessage_roundtrip _ (by decide) (by decide) (by simp)

end ServiceKit

